import Mathlib

/-!
A shallow embedding of the OAuth 2.1 client core found in `src/oauth.ts` and
`src/token-manager.ts`, together with theorems settling the specification
claims about it.

Conventions of the embedding:

* JavaScript strings are Lean `String`s; optional values are `Option`s.
  JavaScript truthiness on a string is `s ≠ ""`, and on an optional number
  `some 0` is falsy; the definitions below spell this out wherever the
  source relies on it (`if (challengeScope)`, `!tokens.expiresAt`,
  `data.expires_in ? … : undefined`, `data.token_type || 'Bearer'`, …).
* String algorithms (splitting, joining, lowercasing, regex matching) are
  implemented structurally over `List Char` so that every definition
  evaluates inside the kernel.
* `Date.now()` (milliseconds since the epoch, never negative) is passed in
  explicitly as a `Nat` argument `now`.
* Network activity is passed in explicitly: an HTTP response consumed by a
  function is an argument, and a whole fetch layer is a function from URL to
  response (an `oracle`).  Request construction (form bodies, headers) is not
  modelled, since no claim concerns it.
* Fallible code returns `Except String α`, the `String` being the message of
  the thrown `Error`.
-/

namespace OAuthCore

/-- JavaScript `String.prototype.split(sep)` for a single-character
separator, on the character list: `"".split(' ') == [""]`,
`"a  b".split(' ') == ["a", "", "b"]`. -/
def splitOnChar (sep : Char) : List Char → List (List Char)
  | [] => [[]]
  | c :: rest =>
    let r := splitOnChar sep rest
    if c = sep then [] :: r
    else
      match r with
      | h :: t => (c :: h) :: t
      | [] => [[c]]

/-- Join character lists with a separator
(JavaScript `Array.prototype.join`). -/
def joinSep (sep : List Char) : List (List Char) → List Char
  | [] => []
  | [w] => w
  | w :: rest => w ++ sep ++ joinSep sep rest

/-- `Array.prototype.join` on strings. -/
def joinStr (sep : String) (l : List String) : String :=
  String.mk (joinSep sep.data (l.map String.data))

/-- Lowercase a string character by character
(JavaScript `String.prototype.toLowerCase`, ASCII range). -/
def lowerStr (s : String) : String := String.mk (s.data.map Char.toLower)

/-- `OAuthConfig` from `src/oauth.ts`. -/
structure OAuthConfig where
  clientId : String
  clientSecret : Option String
  authorizationUrl : String
  tokenUrl : String
  redirectUri : String
  scopes : Option (List String)
  resource : Option String
  deriving Repr, DecidableEq

/-- `OAuthTokens` from `src/oauth.ts`.  `expiresAt` is an absolute epoch
millisecond timestamp (a JavaScript number, modelled as `Int`). -/
structure OAuthTokens where
  accessToken : String
  refreshToken : Option String
  expiresAt : Option Int
  tokenType : String
  scope : Option String
  deriving Repr, DecidableEq

/-- `OAuthState` from `src/oauth.ts` (the PKCE state). -/
structure OAuthState where
  state : String
  codeVerifier : String
  codeChallenge : String
  timestamp : Int
  deriving Repr, DecidableEq

/-- `WWWAuthenticateChallenge` from `src/oauth.ts`. -/
structure WWWAuthenticateChallenge where
  scheme : String
  resource_metadata : Option String := none
  scope : Option String := none
  error : Option String := none
  error_description : Option String := none
  deriving Repr, DecidableEq

/-- `isTokenExpired` from `src/oauth.ts`:

    if (!tokens || !tokens.expiresAt) return true;
    return Date.now() >= (tokens.expiresAt - 5 * 60 * 1000);

`!tokens.expiresAt` is JavaScript truthiness, so a zero timestamp counts as
absent. -/
def isTokenExpired (tokens : Option OAuthTokens) (now : Nat) : Bool :=
  match tokens with
  | none => true
  | some t =>
    match t.expiresAt with
    | none => true
    | some e => if e = 0 then true else decide ((now : Int) ≥ e - 5 * 60 * 1000)

/-- The inline expression `s.split(' ').filter(s => s.length > 0)` used by
`determineScopesToRequest` and `checkInsufficientScope` in `src/oauth.ts`:
split on the space character, drop empty tokens. -/
def splitScopeString (s : String) : List String :=
  ((splitOnChar ' ' s.data).map String.mk).filter (fun t => t ≠ "")

/-- `determineScopesToRequest` from `src/oauth.ts`.  The source guards
priority 1 with `if (challengeScope)`, which is JavaScript truthiness: an
empty challenge-scope string falls through to priority 2. -/
def determineScopesToRequest (challengeScope : Option String)
    (scopesSupported : Option (List String))
    (configuredScopes : Option (List String)) : Option (List String) :=
  let p3 : Option (List String) :=
    match configuredScopes with
    | some c => if c.length > 0 then some c else none
    | none => none
  let p2 : Option (List String) :=
    match scopesSupported with
    | some l => if l.length > 0 then some l else p3
    | none => p3
  match challengeScope with
  | some s => if s ≠ "" then some (splitScopeString s) else p2
  | none => p2


/-! ### `parseWWWAuthenticateHeader` (`src/oauth.ts`)

The source matches the header against `/Bearer\s+(.+)/i` and then scans the
captured text with `/(\w+)=(?:"([^"]*)"|([^\s,]+))/g`.  Both regexes are
embedded below by explicit scanners with JavaScript matching semantics
(leftmost match, greedy quantifiers with the one relevant backtracking case,
`.` not matching a line terminator, `exec` resuming at the end of the
previous match). -/

/-- JavaScript regex `\w`: ASCII letters, digits and underscore. -/
def isWordChar (c : Char) : Bool := c.isAlphanum || c = '_'

/-- JavaScript line terminators relevant here (`.` does not match them). -/
def isLineTerm (c : Char) : Bool := c = '\n' || c = '\r'

/-- JavaScript regex `\s` (ASCII range). -/
def jsWhitespace (c : Char) : Bool := c.isWhitespace

/-- One attempted match of `Bearer\s+(.+)` (case-insensitive) anchored at the
head of `l`: on success, the text captured by `(.+)`.  When the whole tail
after `Bearer` is whitespace, `\s+` backtracks just far enough for `.+` to
match one remaining whitespace character that is not a line terminator. -/
def matchBearerAt (l : List Char) : Option (List Char) :=
  if (l.take 6).map Char.toLower = "bearer".data then
    let r := l.drop 6
    let w := r.takeWhile jsWhitespace
    if w.isEmpty then none
    else
      let rest := r.drop w.length
      if rest.isEmpty then
        match (w.drop 1).reverse.dropWhile isLineTerm with
        | [] => none
        | c :: _ => some [c]
      else some (rest.takeWhile (fun c => !isLineTerm c))
  else none

/-- `headerValue.match(/Bearer\s+(.+)/i)`: the capture of the first (leftmost)
match, scanning left to right. -/
def bearerSearch : List Char → Option (List Char)
  | [] => none
  | c :: rest =>
    match matchBearerAt (c :: rest) with
    | some cap => some cap
    | none => bearerSearch rest

/-- The quoted alternative `"([^"]*)"` of the parameter regex, anchored at
the head of `r2`: requires an opening and a closing quote; yields the value
`match[2] || match[3]` (so `none` for an empty capture, where `""` is falsy)
and the number of characters consumed. -/
def quotedAt : List Char → Option (Option String × Nat)
  | c :: r3 =>
    if c = '\"' then
      if (r3.takeWhile (fun x => x ≠ '\"')).length < r3.length then
        some (if (r3.takeWhile (fun x => x ≠ '\"')).isEmpty then none
              else some (String.mk (r3.takeWhile (fun x => x ≠ '\"'))),
          (r3.takeWhile (fun x => x ≠ '\"')).length + 2)
      else none
    else none
  | [] => none

/-- The bare-token alternative `[^\s,]+` of the parameter regex, anchored at
the head of `r2`. -/
def bareAt (r2 : List Char) : Option (Option String × Nat) :=
  if (r2.takeWhile (fun c => !(jsWhitespace c || c = ','))).isEmpty then none
  else some (some (String.mk (r2.takeWhile (fun c => !(jsWhitespace c || c = ',')))),
    (r2.takeWhile (fun c => !(jsWhitespace c || c = ','))).length)

/-- The value alternation `(?:"([^"]*)"|([^\s,]+))`: quoted first, bare
tried at the same position when the quoted alternative fails. -/
def valueAt (r2 : List Char) : Option (Option String × Nat) :=
  match quotedAt r2 with
  | some v => some v
  | none => bareAt r2

/-- One attempted match of `(\w+)=(?:"([^"]*)"|([^\s,]+))` anchored at the
head of `l`: on success, the key, the value, and the length of the whole
match. -/
def tryPairAt (l : List Char) : Option ((String × Option String) × Nat) :=
  if (l.takeWhile isWordChar).isEmpty then none
  else
    match l.drop (l.takeWhile isWordChar).length with
    | c1 :: r2 =>
      if c1 = '=' then
        match valueAt r2 with
        | some (v, vlen) =>
          some ((String.mk (l.takeWhile isWordChar), v),
            (l.takeWhile isWordChar).length + 1 + vlen)
        | none => none
      else none
    | [] => none

/-- The `paramRegex.exec` loop: find the leftmost match at or after the
current position, record it, resume at its end.  The fuel argument only
bounds the iteration count; every step consumes at least one character, so
`l.length` fuel is always enough. -/
def scanParamsAux : Nat → List Char → List (String × Option String)
  | 0, _ => []
  | _ + 1, [] => []
  | fuel + 1, c :: rest =>
    match tryPairAt (c :: rest) with
    | some (kv, len) => kv :: scanParamsAux fuel ((c :: rest).drop len)
    | none => scanParamsAux fuel rest

def scanParams (l : List Char) : List (String × Option String) :=
  scanParamsAux l.length l

/-- One arm of the `switch (key.toLowerCase())` statement: assign the value
(possibly `undefined`) to the matching challenge field, ignore other keys. -/
def applyStep (ch : WWWAuthenticateChallenge) (kv : String × Option String) :
    WWWAuthenticateChallenge :=
  if lowerStr kv.1 = "resource_metadata" then { ch with resource_metadata := kv.2 }
  else if lowerStr kv.1 = "scope" then { ch with scope := kv.2 }
  else if lowerStr kv.1 = "error" then { ch with error := kv.2 }
  else if lowerStr kv.1 = "error_description" then { ch with error_description := kv.2 }
  else ch

def applyParams (ch : WWWAuthenticateChallenge)
    (pairs : List (String × Option String)) : WWWAuthenticateChallenge :=
  pairs.foldl applyStep ch

/-- `parseWWWAuthenticateHeader` from `src/oauth.ts`. -/
def parseWWWAuthenticateHeader (headerValue : String) :
    Option WWWAuthenticateChallenge :=
  if headerValue = "" then none
  else
    match bearerSearch headerValue.data with
    | none => none
    | some params => some (applyParams { scheme := "Bearer" } (scanParams params))


/-! ### `checkInsufficientScope` (`src/oauth.ts`) -/

/-- The data of the `InsufficientScopeError` class from `src/oauth.ts`,
including the message built by its constructor. -/
structure InsufficientScopeError where
  message : String
  requiredScopes : List String
  currentScopes : Option (List String)
  resourceMetadata : Option String
  errorDescription : Option String
  deriving Repr, DecidableEq

/-- The `InsufficientScopeError` constructor.  The message uses
`currentScopes?.join(' ') || 'none'` (so an empty join falls back to `none`)
and `errorDescription || ''`. -/
def mkInsufficientScopeError (requiredScopes : List String)
    (currentScopes : Option (List String)) (resourceMetadata : Option String)
    (errorDescription : Option String) : InsufficientScopeError :=
  let joined : String :=
    match currentScopes with
    | some l =>
      let j := joinStr " " l
      if j = "" then "none" else j
    | none => "none"
  { message := "Insufficient scope. Required scopes: " ++
      joinStr " " requiredScopes ++
      ". Current scopes: " ++ joined ++ ". " ++ errorDescription.getD ""
    requiredScopes := requiredScopes
    currentScopes := currentScopes
    resourceMetadata := resourceMetadata
    errorDescription := errorDescription }

/-- `checkInsufficientScope` from `src/oauth.ts`.  `!wwwAuthenticateHeader`
and `!challenge.scope` are JavaScript truthiness, so empty strings take the
`return null` branches. -/
def checkInsufficientScope (statusCode : Nat)
    (wwwAuthenticateHeader : Option String)
    (currentScopes : Option (List String)) : Option InsufficientScopeError :=
  if statusCode ≠ 403 then none
  else
    match wwwAuthenticateHeader with
    | none => none
    | some h =>
      if h = "" then none
      else
        match parseWWWAuthenticateHeader h with
        | none => none
        | some challenge =>
          if challenge.error ≠ some "insufficient_scope" then none
          else
            match challenge.scope with
            | none => none
            | some s =>
              if s = "" then none
              else some (mkInsufficientScopeError (splitScopeString s)
                currentScopes challenge.resource_metadata
                challenge.error_description)


/-! ### `buildAuthorizationUrl` (`src/oauth.ts`) -/

/-- The `URLSearchParams` content built by `buildAuthorizationUrl`: the six
base entries, then `scope` appended only when scopes are defined and
non-empty, then `resource` appended only when `config.resource` is truthy. -/
def buildAuthorizationUrlParams (config : OAuthConfig)
    (oauthState : OAuthState) (scopes : Option (List String)) :
    List (String × String) :=
  let base := [("client_id", config.clientId), ("response_type", "code"),
    ("redirect_uri", config.redirectUri), ("state", oauthState.state),
    ("code_challenge", oauthState.codeChallenge),
    ("code_challenge_method", "S256")]
  let withScope := base ++
    (match scopes with
     | some l =>
       if l.length > 0 then
         [("scope", joinStr " " l)]
       else []
     | none => [])
  withScope ++
    (match config.resource with
     | some r => if r ≠ "" then [("resource", r)] else []
     | none => [])

/-- `buildAuthorizationUrl` from `src/oauth.ts`:
`config.authorizationUrl + '?' + params.toString()`.  The percent-encoding
done by `URLSearchParams.toString` is abstracted away; the query is rendered
as the `key=value` pairs joined by `&`. -/
def buildAuthorizationUrl (config : OAuthConfig) (oauthState : OAuthState)
    (scopes : Option (List String)) : String :=
  config.authorizationUrl ++ "?" ++
    String.mk (joinSep ['&']
      ((buildAuthorizationUrlParams config oauthState scopes).map
        (fun kv => kv.1.data ++ '=' :: kv.2.data)))

/-! ### Token endpoint calls (`src/oauth.ts`)

`exchangeCodeForToken` and `refreshAccessToken` POST to the token endpoint
and map the JSON response to an `OAuthTokens`.  The HTTP response is passed
in as an argument: `ok` is `response.ok`, `bodyText` the text read on
failure, `json` the parsed body read on success. -/

/-- The fields of the parsed token endpoint JSON body that the source
reads. -/
structure TokenResponseJson where
  access_token : String
  refresh_token : Option String
  expires_in : Option Int
  token_type : Option String
  scope : Option String
  deriving Repr, DecidableEq

structure TokenEndpointResponse where
  ok : Bool
  bodyText : String
  json : TokenResponseJson
  deriving Repr, DecidableEq

/-- `data.expires_in ? Date.now() + (data.expires_in * 1000) : undefined`:
a zero `expires_in` is falsy and leaves the expiry absent. -/
def jsExpiresAt (expires_in : Option Int) (now : Nat) : Option Int :=
  match expires_in with
  | some e => if e = 0 then none else some ((now : Int) + e * 1000)
  | none => none

/-- `data.token_type || 'Bearer'`: absent or empty defaults to Bearer. -/
def jsTokenType (token_type : Option String) : String :=
  match token_type with
  | some t => if t = "" then "Bearer" else t
  | none => "Bearer"

/-- `exchangeCodeForToken` from `src/oauth.ts`, response mapping. -/
def exchangeCodeForToken (response : TokenEndpointResponse) (now : Nat) :
    Except String OAuthTokens :=
  if !response.ok then .error ("Token exchange failed: " ++ response.bodyText)
  else .ok { accessToken := response.json.access_token
             refreshToken := response.json.refresh_token
             expiresAt := jsExpiresAt response.json.expires_in now
             tokenType := jsTokenType response.json.token_type
             scope := response.json.scope }

/-- `refreshAccessToken` from `src/oauth.ts`, response mapping.
`data.refresh_token || refreshToken` carries the old refresh token forward
when the response's one is absent or empty. -/
def refreshAccessToken (refreshToken : String)
    (response : TokenEndpointResponse) (now : Nat) :
    Except String OAuthTokens :=
  if !response.ok then .error ("Token refresh failed: " ++ response.bodyText)
  else .ok { accessToken := response.json.access_token
             refreshToken := some
               (match response.json.refresh_token with
                | some r => if r = "" then refreshToken else r
                | none => refreshToken)
             expiresAt := jsExpiresAt response.json.expires_in now
             tokenType := jsTokenType response.json.token_type
             scope := response.json.scope }

/-! ### `TokenManager` (`src/token-manager.ts`)

The class's three private fields become an explicit state record; every
method becomes a function of that state. -/

structure TokenManagerState where
  tokens : Option OAuthTokens
  pendingState : Option OAuthState
  config : Option OAuthConfig
  deriving Repr, DecidableEq

namespace TokenManager

def setConfig (st : TokenManagerState) (config : OAuthConfig) :
    TokenManagerState :=
  { st with config := some config }

def getConfig (st : TokenManagerState) : Option OAuthConfig := st.config

def setPendingState (st : TokenManagerState) (state : OAuthState) :
    TokenManagerState :=
  { st with pendingState := some state }

/-- `getPendingState`: returns the pending state and clears it (read-once). -/
def getPendingState (st : TokenManagerState) :
    Option OAuthState × TokenManagerState :=
  (st.pendingState, { st with pendingState := none })

def setTokens (st : TokenManagerState) (tokens : OAuthTokens) :
    TokenManagerState :=
  { st with tokens := some tokens }

def getTokens (st : TokenManagerState) : Option OAuthTokens := st.tokens

def clearTokens (st : TokenManagerState) : TokenManagerState :=
  { st with tokens := none }

/-- `getValidAccessToken` from `src/token-manager.ts`.  `refreshResponse` is
the token endpoint's answer to the refresh request, consulted only on the
refresh path.  `!this.tokens.refreshToken` is JavaScript truthiness, so an
empty-string refresh token takes the re-authenticate branch. -/
def getValidAccessToken (st : TokenManagerState) (now : Nat)
    (refreshResponse : TokenEndpointResponse) :
    Except String (Option String) × TokenManagerState :=
  match st.tokens with
  | none => (.ok none, st)
  | some tk =>
    if isTokenExpired (some tk) now then
      match tk.refreshToken with
      | none => (.ok none, clearTokens st)
      | some rt =>
        if rt = "" then (.ok none, clearTokens st)
        else
          match st.config with
          | none => (.error "OAuth config not set", st)
          | some _ =>
            match refreshAccessToken rt refreshResponse now with
            | .ok newTokens =>
              (.ok (some newTokens.accessToken), setTokens st newTokens)
            | .error e => (.error e, clearTokens st)
    else (.ok (some tk.accessToken), st)

/-- `isAuthenticated` from `src/token-manager.ts`. -/
def isAuthenticated (st : TokenManagerState) (now : Nat) : Bool :=
  st.tokens.isSome && !isTokenExpired st.tokens now

end TokenManager

/-! ### Authorization server metadata discovery (`src/oauth.ts`)

`discoverAuthorizationServerMetadata` builds candidate well-known URLs from
the issuer URL (parsed with `new URL`) and tries them in order through
`fetchAuthorizationServerMetadata`.  The WHATWG `URL` parser is embedded for
the `scheme://host[/path]` shape that issuer identifiers take: `origin` is
the lowercased `scheme://host` and `pathname` the part from the first slash
(defaulting to `/`); query strings, fragments, userinfo and default-port
elision are outside the model. -/

/-- The `origin` and `pathname` of a parsed URL. -/
structure UrlParts where
  origin : String
  pathname : String
  deriving Repr, DecidableEq

/-- Split a character list at the first occurrence of `://`. -/
def splitAtProtocolSep : List Char → Option (List Char × List Char)
  | [] => none
  | ':' :: '/' :: '/' :: rest => some ([], rest)
  | c :: rest =>
    (splitAtProtocolSep rest).map (fun p => (c :: p.1, p.2))

/-- `new URL(s)`, for the modelled URL shape; `none` models the thrown
`TypeError` on an invalid URL. -/
def parseUrl (s : String) : Option UrlParts :=
  match splitAtProtocolSep s.data with
  | none => none
  | some (scheme, rest) =>
    if scheme.isEmpty then none
    else
      let host := rest.takeWhile (fun c => c ≠ '/')
      if host.isEmpty then none
      else
        let path := rest.drop host.length
        some { origin := String.mk ((scheme.map Char.toLower) ++ ':' :: '/' :: '/' :: host.map Char.toLower)
               pathname := if path.isEmpty then "/" else String.mk path }

/-- The fields of the authorization-server metadata JSON that the source
validates and compares; further fields are irrelevant to the claims. -/
structure AuthorizationServerMetadata where
  issuer : Option String
  authorization_endpoint : Option String
  token_endpoint : Option String
  response_types_supported : Option (List String)
  deriving Repr, DecidableEq

/-- The outcome of one `fetch` of a discovery URL: a network failure
(rejected promise) or an HTTP response with its parsed JSON body. -/
inductive FetchResult where
  | fail (message : String)
  | resp (ok : Bool) (status : Nat) (statusText : String)
      (body : AuthorizationServerMetadata)
  deriving Repr, DecidableEq

/-- JavaScript truthiness of an optional string. -/
def jsTruthyStr (o : Option String) : Bool :=
  match o with
  | some s => s ≠ ""
  | none => false

/-- `fetchAuthorizationServerMetadata` from `src/oauth.ts`: fetch one URL,
reject non-success statuses, require the RFC 8414 mandatory fields
(`issuer`, `authorization_endpoint`, `token_endpoint` truthy and
`response_types_supported` a non-empty array). -/
def fetchAuthorizationServerMetadata (oracle : String → FetchResult)
    (metadataUrl : String) : Except String AuthorizationServerMetadata :=
  match oracle metadataUrl with
  | .fail msg => .error msg
  | .resp ok status statusText body =>
    if !ok then
      .error ("Failed to fetch Authorization Server Metadata: " ++
        toString status ++ " " ++ statusText)
    else if !(jsTruthyStr body.issuer && jsTruthyStr body.authorization_endpoint
        && jsTruthyStr body.token_endpoint) then
      .error "Invalid Authorization Server Metadata: missing required fields"
    else
      match body.response_types_supported with
      | none =>
        .error "Invalid Authorization Server Metadata: response_types_supported is required"
      | some rts =>
        if rts.isEmpty then
          .error "Invalid Authorization Server Metadata: response_types_supported is required"
        else .ok body

/-- `path.endsWith('/') && path !== '/' ? path.slice(0, -1) : path`. -/
def normalizePath (path : String) : String :=
  if path.data.getLast? = some '/' && path ≠ "/" then
    String.mk path.data.dropLast
  else path

/-- The ordered candidate discovery URLs built by
`discoverAuthorizationServerMetadata`: path-insertion forms for issuers with
a non-root path (plus the path-appending OpenID form on the raw issuer URL),
root forms otherwise. -/
def discoveryUrls (issuerUrl : String) (u : UrlParts) : List String :=
  let normalizedPath := normalizePath u.pathname
  if normalizedPath ≠ "" && normalizedPath ≠ "/" then
    [u.origin ++ "/.well-known/oauth-authorization-server" ++ normalizedPath,
     u.origin ++ "/.well-known/openid-configuration" ++ normalizedPath,
     issuerUrl ++ "/.well-known/openid-configuration"]
  else
    [u.origin ++ "/.well-known/oauth-authorization-server",
     u.origin ++ "/.well-known/openid-configuration"]

/-- The body of one iteration of the discovery loop: fetch and validate the
candidate, then check that the metadata's `issuer` parses and matches the
expected issuer (case-insensitive origin, exact path).  The `Except.error`
carries what the iteration stores into `lastError`. -/
def candidateOutcome (oracle : String → FetchResult) (issuerUrl : String)
    (expected : UrlParts) (discoveryUrl : String) :
    Except String AuthorizationServerMetadata :=
  match fetchAuthorizationServerMetadata oracle discoveryUrl with
  | .error e => .error e
  | .ok metadata =>
    let issuerStr := metadata.issuer.getD ""
    match parseUrl issuerStr with
    | none => .error ("Invalid URL: " ++ issuerStr)
    | some mi =>
      if lowerStr mi.origin = lowerStr expected.origin
          && mi.pathname = expected.pathname then .ok metadata
      else
        .error ("Issuer mismatch: expected " ++ issuerUrl ++ ", got " ++
          issuerStr)

/-- The `for … of discoveryUrls` loop with its `lastError` accumulator:
return the first successful candidate, or the final `lastError`. -/
def discoverLoop (oracle : String → FetchResult) (issuerUrl : String)
    (expected : UrlParts) :
    List String → Option String → AuthorizationServerMetadata ⊕ Option String
  | [], lastError => .inr lastError
  | url :: rest, _ =>
    match candidateOutcome oracle issuerUrl expected url with
    | .ok m => .inl m
    | .error e => discoverLoop oracle issuerUrl expected rest (some e)

/-- The error thrown when every candidate fails (`lastError?.message`
renders as `undefined` when absent, which cannot happen here since the
candidate list is never empty). -/
def discoveryFailureMessage (issuerUrl : String) (urls : List String)
    (lastError : Option String) : String :=
  "Failed to discover Authorization Server Metadata for " ++ issuerUrl ++
    ". Tried: " ++
    joinStr ", " urls ++
    ". Last error: " ++ lastError.getD "undefined"

/-- `discoverAuthorizationServerMetadata` from `src/oauth.ts`. -/
def discoverAuthorizationServerMetadata (oracle : String → FetchResult)
    (issuerUrl : String) : Except String AuthorizationServerMetadata :=
  match parseUrl issuerUrl with
  | none => .error ("Invalid URL: " ++ issuerUrl)
  | some u =>
    let urls := discoveryUrls issuerUrl u
    match discoverLoop oracle issuerUrl u urls none with
    | .inl m => .ok m
    | .inr lastError =>
      .error (discoveryFailureMessage issuerUrl urls lastError)

/-- The first candidate accepted by the loop, as a direct search. -/
def firstSuccess (oracle : String → FetchResult) (issuerUrl : String)
    (expected : UrlParts) (urls : List String) :
    Option AuthorizationServerMetadata :=
  urls.findSome? (fun url =>
    (candidateOutcome oracle issuerUrl expected url).toOption)

/-- The value of the `lastError` accumulator after the whole loop has run
without returning. -/
def lastErrorOf (oracle : String → FetchResult) (issuerUrl : String)
    (expected : UrlParts) (urls : List String) (init : Option String) :
    Option String :=
  urls.foldl (fun acc url =>
    match candidateOutcome oracle issuerUrl expected url with
    | .error e => some e
    | .ok _ => acc) init


/-! ### Claim-side definitions

The following definitions do not embed source code; they formalise the words
of the specification claims, for the claims that the code refutes.  Each is
clearly marked. -/

/-- Claim wording (C3): split a string on whitespace, dropping empty
tokens. -/
def whitespaceSplitDropEmpty (s : String) : List String :=
  ((s.data.splitOnP jsWhitespace).map String.mk).filter (fun t => t ≠ "")

/-- Claim wording (C5): the authentication scheme of a `WWW-Authenticate`
header value is its first whitespace-delimited token. -/
def headerScheme (s : String) : String :=
  String.mk ((s.data.dropWhile jsWhitespace).takeWhile (fun c => !jsWhitespace c))

/-- Keys kept by the challenge parser (C5). -/
def recognizedKey (k : String) : Bool :=
  lowerStr k = "resource_metadata" || lowerStr k = "scope" ||
    lowerStr k = "error" || lowerStr k = "error_description"

/-- Claim C1 as stated: for every store state, `getValidAccessToken` returns
none when no tokens are stored; returns the stored access token with the
stored TokenSet unchanged when not expired; when expired with a refresh
token, on refresh success replaces the stored TokenSet wholesale and returns
the new access token, and on refresh failure clears all stored tokens and
propagates the refresh error; when expired without a refresh token, clears
tokens and returns none without raising an error. -/
def claimC1 : Prop :=
  ∀ (st : TokenManagerState) (now : Nat) (resp : TokenEndpointResponse),
    (st.tokens = none →
      TokenManager.getValidAccessToken st now resp = (.ok none, st)) ∧
    (∀ tk, st.tokens = some tk → isTokenExpired (some tk) now = false →
      TokenManager.getValidAccessToken st now resp =
        (.ok (some tk.accessToken), st)) ∧
    (∀ tk rt, st.tokens = some tk → isTokenExpired (some tk) now = true →
      tk.refreshToken = some rt →
      (∀ nt, refreshAccessToken rt resp now = .ok nt →
        TokenManager.getValidAccessToken st now resp =
          (.ok (some nt.accessToken), TokenManager.setTokens st nt)) ∧
      (∀ e, refreshAccessToken rt resp now = .error e →
        TokenManager.getValidAccessToken st now resp =
          (.error e, TokenManager.clearTokens st))) ∧
    (∀ tk, st.tokens = some tk → isTokenExpired (some tk) now = true →
      tk.refreshToken = none →
      TokenManager.getValidAccessToken st now resp =
        (.ok none, TokenManager.clearTokens st))

/-- Claim C3 as stated: a present challenge scope string is split on
whitespace with empty tokens dropped and that (possibly empty) list
returned; otherwise a non-empty `scopes_supported` list verbatim; otherwise
a non-empty configured list verbatim; otherwise none. -/
def claimC3 : Prop :=
  ∀ (cs : Option String) (ss conf : Option (List String)),
    (∀ s, cs = some s →
      determineScopesToRequest cs ss conf = some (whitespaceSplitDropEmpty s)) ∧
    (cs = none →
      (∀ l, ss = some l → l ≠ [] →
        determineScopesToRequest cs ss conf = some l) ∧
      ((ss = none ∨ ss = some []) →
        (∀ c, conf = some c → c ≠ [] →
          determineScopesToRequest cs ss conf = some c) ∧
        ((conf = none ∨ conf = some []) →
          determineScopesToRequest cs ss conf = none)))

/-- Claim C5 as stated (the scheme sentence): only the `Bearer` scheme is
recognized, case-insensitively, and a header of any other scheme yields no
challenge. -/
def claimC5 : Prop :=
  ∀ s : String,
    (lowerStr (headerScheme s) ≠ "bearer" →
      parseWWWAuthenticateHeader s = none) ∧
    (∀ c, parseWWWAuthenticateHeader s = some c → c.scheme = "Bearer")

/-- Claim C7 as stated: a successful token response with a present
`expires_in` yields tokens whose expiry is the absolute timestamp computed
at receipt time, and expiry is absent otherwise; an absent `token_type`
defaults to Bearer; on refresh an omitted refresh token carries the old one
forward; a non-success status yields the failure carrying the body. -/
def claimC7 : Prop :=
  ∀ (resp : TokenEndpointResponse) (now : Nat) (rt : String),
    (resp.ok = true →
      (∀ e, resp.json.expires_in = some e →
        (∃ t, exchangeCodeForToken resp now = .ok t ∧
          t.expiresAt = some ((now : Int) + e * 1000)) ∧
        (∃ t, refreshAccessToken rt resp now = .ok t ∧
          t.expiresAt = some ((now : Int) + e * 1000))) ∧
      (resp.json.expires_in = none →
        ∃ t, exchangeCodeForToken resp now = .ok t ∧ t.expiresAt = none) ∧
      (resp.json.token_type = none →
        ∃ t, exchangeCodeForToken resp now = .ok t ∧ t.tokenType = "Bearer") ∧
      (resp.json.refresh_token = none →
        ∃ t, refreshAccessToken rt resp now = .ok t ∧
          t.refreshToken = some rt)) ∧
    (resp.ok = false →
      exchangeCodeForToken resp now =
        .error ("Token exchange failed: " ++ resp.bodyText) ∧
      refreshAccessToken rt resp now =
        .error ("Token refresh failed: " ++ resp.bodyText))

/-- Claim C8 as stated: the six base query parameters are always present;
`scope` is present iff the scope list is non-none and non-empty; `resource`
is present iff `config.resource` is set. -/
def claimC8 : Prop :=
  ∀ (config : OAuthConfig) (oauthState : OAuthState)
    (scopes : Option (List String)),
    let p := buildAuthorizationUrlParams config oauthState scopes
    ("client_id", config.clientId) ∈ p ∧ ("response_type", "code") ∈ p ∧
    ("redirect_uri", config.redirectUri) ∈ p ∧
    ("state", oauthState.state) ∈ p ∧
    ("code_challenge", oauthState.codeChallenge) ∈ p ∧
    ("code_challenge_method", "S256") ∈ p ∧
    ("scope" ∈ p.map Prod.fst ↔ ∃ l, scopes = some l ∧ l ≠ []) ∧
    ("resource" ∈ p.map Prod.fst ↔ config.resource ≠ none)

/-! ### Concrete fixtures used by counterexamples and witnesses -/

/-- A stored token set that is expired (no expiry) and holds a refresh
token. -/
def tkExpired : OAuthTokens :=
  { accessToken := "old-access", refreshToken := some "rt-1",
    expiresAt := none, tokenType := "Bearer", scope := none }

/-- A store holding `tkExpired` but no configuration. -/
def stNoConfig : TokenManagerState :=
  { tokens := some tkExpired, pendingState := none, config := none }

/-- A minimal OAuth configuration. -/
def cfgBasic : OAuthConfig :=
  { clientId := "client-1", clientSecret := none,
    authorizationUrl := "https://auth.example.com/authorize",
    tokenUrl := "https://auth.example.com/token",
    redirectUri := "http://localhost:3000/callback",
    scopes := none, resource := none }

/-- A store holding `tkExpired` and `cfgBasic`. -/
def stWithConfig : TokenManagerState :=
  { tokens := some tkExpired, pendingState := none, config := some cfgBasic }

/-- A successful token endpoint response with no refresh token, no
`expires_in` and no `token_type`. -/
def respOkBare : TokenEndpointResponse :=
  { ok := true, bodyText := "",
    json := { access_token := "new-access", refresh_token := none,
              expires_in := none, token_type := none, scope := none } }

/-- A successful token endpoint response with `expires_in` of 0. -/
def respOkExpiresZero : TokenEndpointResponse :=
  { ok := true, bodyText := "",
    json := { access_token := "tok", refresh_token := none,
              expires_in := some 0, token_type := some "Bearer",
              scope := none } }

/-- A failed token endpoint response. -/
def respFail : TokenEndpointResponse :=
  { ok := false, bodyText := "invalid_grant",
    json := { access_token := "", refresh_token := none, expires_in := none,
              token_type := none, scope := none } }

/-- A PKCE state fixture. -/
def pkceFixture : OAuthState :=
  { state := "state-1", codeVerifier := "verifier-1",
    codeChallenge := "challenge-1", timestamp := 0 }

/-- Valid authorization-server metadata for issuer
`https://auth.example.com/tenant1`. -/
def metaTenant1 : AuthorizationServerMetadata :=
  { issuer := some "https://auth.example.com/tenant1",
    authorization_endpoint := some "https://auth.example.com/tenant1/authorize",
    token_endpoint := some "https://auth.example.com/tenant1/token",
    response_types_supported := some ["code"] }

/-- A fetch layer that answers the first path-insertion discovery URL for
`https://auth.example.com/tenant1` with `metaTenant1` and fails every other
URL. -/
def oracleTenant1 (url : String) : FetchResult :=
  if url = "https://auth.example.com/.well-known/oauth-authorization-server/tenant1"
  then .resp true 200 "OK" metaTenant1
  else .fail "connection refused"

/-- A fetch layer that fails every URL. -/
def oracleAllFail (url : String) : FetchResult :=
  .fail ("no route to " ++ url)

instance {ε : Type u} {α : Type v} [DecidableEq ε] [DecidableEq α] :
    DecidableEq (Except ε α) := fun x y =>
  match x, y with
  | .error a, .error b =>
    if h : a = b then isTrue (congrArg Except.error h)
    else isFalse (fun hc => h (Except.error.inj hc))
  | .ok a, .ok b =>
    if h : a = b then isTrue (congrArg Except.ok h)
    else isFalse (fun hc => h (Except.ok.inj hc))
  | .error _, .ok _ => isFalse (fun hc => Except.noConfusion hc)
  | .ok _, .error _ => isFalse (fun hc => Except.noConfusion hc)


/-! ### Theorems -/

/-- C9: the pending PKCE state is read-once.  After setting a pending state,
the first read returns it and clears it, a second consecutive read returns
none until a new pending state is set, and the single `pendingState` field
holds at most one `PKCEState` (a second set overwrites the first). -/
theorem c9_pending_state_read_once (st : TokenManagerState) (s : OAuthState) :
    (TokenManager.getPendingState (TokenManager.setPendingState st s)).1 =
      some s ∧
    ((TokenManager.getPendingState (TokenManager.setPendingState st s)).2).pendingState =
      none ∧
    (TokenManager.getPendingState
      ((TokenManager.getPendingState (TokenManager.setPendingState st s)).2)).1 =
      none ∧
    (∀ s2, (TokenManager.setPendingState (TokenManager.setPendingState st s)
      s2).pendingState = some s2) := by
  refine ⟨rfl, rfl, rfl, fun s2 => rfl⟩

/-- C10: clearing tokens is frame-preserving.  `clearTokens` sets the stored
token set to none and leaves the configuration and pending PKCE state
unchanged; `getConfig` after a `setConfig` followed by `clearTokens` returns
that config; and every path through `getValidAccessToken` (including its
token-clearing paths) leaves the stored configuration unchanged. -/
theorem c10_clear_tokens_frame (st : TokenManagerState) :
    (TokenManager.clearTokens st).config = st.config ∧
    (TokenManager.clearTokens st).pendingState = st.pendingState ∧
    (TokenManager.clearTokens st).tokens = none ∧
    (∀ c, TokenManager.getConfig
      (TokenManager.clearTokens (TokenManager.setConfig st c)) = some c) ∧
    (∀ now resp,
      ((TokenManager.getValidAccessToken st now resp).2).config = st.config) := by
  obtain ⟨tks, ps, cfg⟩ := st
  refine ⟨rfl, rfl, rfl, fun c => rfl, fun now resp => ?_⟩
  unfold TokenManager.getValidAccessToken TokenManager.clearTokens
    TokenManager.setTokens
  repeat' split
  all_goals rfl

/-- C3 counterexample: the claim as stated is false.  For the present,
non-empty challenge scope string consisting of a single tab character, the
claim requires the whitespace-split, empty-dropped list `[]`, but the source
splits on the space character only and returns `["\t"]`. -/
theorem c3_counterexample : ¬ claimC3 := by
  intro h
  have h1 := (h (some "\t") none none).1 "\t" rfl
  rw [show determineScopesToRequest (some "\t") none none = some ["\t"] from
    rfl] at h1
  have h2 : whitespaceSplitDropEmpty "\t" = [] := rfl
  rw [h2] at h1
  exact absurd (Option.some.inj h1) (by decide)

/-- C3 (amended): scope selection follows strict priority, with splitting on
the space character (not general whitespace) and with an empty challenge
scope string treated as absent (JavaScript truthiness): a non-empty
challenge scope string is split on spaces with empty tokens dropped and that
(possibly empty) list is returned; otherwise a non-empty discovered
`scopes_supported` list is returned verbatim; otherwise a non-empty
configured scope list is returned verbatim; otherwise none. -/
theorem c3_scope_selection (cs : Option String) (ss conf : Option (List String)) :
    (∀ s, cs = some s → s ≠ "" →
      determineScopesToRequest cs ss conf = some (splitScopeString s)) ∧
    (cs = none ∨ cs = some "" →
      (∀ l, ss = some l → l ≠ [] →
        determineScopesToRequest cs ss conf = some l) ∧
      ((ss = none ∨ ss = some []) →
        (∀ c, conf = some c → c ≠ [] →
          determineScopesToRequest cs ss conf = some c) ∧
        ((conf = none ∨ conf = some []) →
          determineScopesToRequest cs ss conf = none))) := by
  constructor
  · rintro s rfl hs
    simp [determineScopesToRequest, hs]
  · rintro (rfl | rfl) <;>
    · refine ⟨?_, ?_⟩
      · rintro l rfl hl
        simp [determineScopesToRequest, List.length_pos.mpr hl]
      · rintro (rfl | rfl) <;>
        · refine ⟨?_, ?_⟩
          · rintro c rfl hc
            simp [determineScopesToRequest, List.length_pos.mpr hc]
          · rintro (rfl | rfl) <;> rfl

/-- C3 witness: the amended theorem applied at the specification's own
examples. -/
theorem c3_scope_selection_witness :
    determineScopesToRequest (some "read write") (some ["admin"]) none =
      some ["read", "write"] ∧
    determineScopesToRequest none (some ["admin", "user"]) none =
      some ["admin", "user"] ∧
    determineScopesToRequest none none (some ["default"]) =
      some ["default"] ∧
    determineScopesToRequest none none none = none := by
  refine ⟨?_, ?_, ?_, ?_⟩
  · have := (c3_scope_selection (some "read write") (some ["admin"]) none).1
      "read write" rfl (by decide)
    rw [this]
    rfl
  · exact ((c3_scope_selection none (some ["admin", "user"]) none).2
      (Or.inl rfl)).1 ["admin", "user"] rfl (by decide)
  · exact (((c3_scope_selection none none (some ["default"])).2
      (Or.inl rfl)).2 (Or.inl rfl)).1 ["default"] rfl (by decide)
  · exact ((((c3_scope_selection none none none).2 (Or.inl rfl)).2
      (Or.inl rfl)).2 (Or.inl rfl))

/-- C6: a token set is expired exactly when its expiry timestamp is absent,
already passed, or within the 5-minute margin of the current time; a token
with no expiry is always expired, one expiring in 4 minutes is expired, one
expiring in 10 minutes is not; and `isAuthenticated` and
`getValidAccessToken` are keyed on this same rule. -/
theorem c6_expiry_rule (tks : Option OAuthTokens) (now : Nat) :
    (isTokenExpired tks now = true ↔
      tks = none ∨ ∃ tk, tks = some tk ∧
        (tk.expiresAt = none ∨ ∃ e : Int, tk.expiresAt = some e ∧
          (e ≤ (now : Int) ∨ e - (now : Int) ≤ 5 * 60 * 1000))) ∧
    (∀ tk, tks = some tk →
      tk.expiresAt = some ((now : Int) + 4 * 60 * 1000) →
      isTokenExpired tks now = true) ∧
    (∀ tk, tks = some tk →
      tk.expiresAt = some ((now : Int) + 10 * 60 * 1000) →
      isTokenExpired tks now = false) ∧
    (∀ tk, tks = some tk → tk.expiresAt = none →
      isTokenExpired tks now = true) ∧
    (∀ st : TokenManagerState, st.tokens = tks →
      (TokenManager.isAuthenticated st now = true ↔
        tks ≠ none ∧ isTokenExpired tks now = false)) ∧
    (∀ (st : TokenManagerState) (resp : TokenEndpointResponse) tk,
      st.tokens = some tk → isTokenExpired (some tk) now = false →
      TokenManager.getValidAccessToken st now resp =
        (.ok (some tk.accessToken), st)) := by
  refine ⟨?_, ?_, ?_, ?_, ?_, ?_⟩
  · rcases tks with _ | tk
    · simp [isTokenExpired]
    · rcases htk : tk.expiresAt with _ | e
      · simp [isTokenExpired, htk]
      · by_cases he : e = 0
        · subst he
          simp [isTokenExpired, htk]
        · simp [isTokenExpired, htk, he]
          omega
  · rintro tk rfl he
    have hne : (now : Int) + 4 * 60 * 1000 ≠ 0 := by omega
    simp [isTokenExpired, he, hne]
  · rintro tk rfl he
    have hne : (now : Int) + 10 * 60 * 1000 ≠ 0 := by omega
    simp [isTokenExpired, he, hne]
    omega
  · rintro tk rfl he
    simp [isTokenExpired, he]
  · rintro st rfl
    rcases hst : st.tokens with _ | tk
    · simp [TokenManager.isAuthenticated, hst]
    · simp [TokenManager.isAuthenticated, hst]
  · intro st resp tk hst hexp
    simp [TokenManager.getValidAccessToken, hst, hexp]

/-- C6 witness: the margin rule evaluated at the specification's examples
(current time 0; expiries in 4 minutes, in 10 minutes, and absent). -/
theorem c6_expiry_rule_witness :
    isTokenExpired (some { accessToken := "a", refreshToken := none,
                           expiresAt := some 240000, tokenType := "Bearer",
                           scope := none }) 0 = true ∧
    isTokenExpired (some { accessToken := "a", refreshToken := none,
                           expiresAt := some 600000, tokenType := "Bearer",
                           scope := none }) 0 = false ∧
    isTokenExpired (some { accessToken := "a", refreshToken := none,
                           expiresAt := none, tokenType := "Bearer",
                           scope := none }) 0 = true := by
  refine ⟨?_, ?_, ?_⟩
  · exact (c6_expiry_rule _ 0).2.1 _ rfl (by norm_num)
  · exact (c6_expiry_rule _ 0).2.2.1 _ rfl (by norm_num)
  · exact (c6_expiry_rule _ 0).2.2.2.1 _ rfl rfl

/-! ### Parser lemmas -/

theorem stringMk_eq_empty_iff (l : List Char) : String.mk l = "" ↔ l = [] := by
  constructor
  · intro h
    exact congrArg String.data h
  · intro h
    rw [h]

/-- The quoted alternative never yields `some ""`. -/
theorem quotedAt_value_ne_empty (r2 : List Char) (v : String) (n : Nat)
    (h : quotedAt r2 = some (some v, n)) : v ≠ "" := by
  rcases r2 with _ | ⟨c, r3⟩
  · exact absurd h (by simp [quotedAt])
  · simp only [quotedAt] at h
    by_cases hc : c = '\"'
    · rw [if_pos hc] at h
      by_cases hl : (r3.takeWhile (fun x => x ≠ '\"')).length < r3.length
      · rw [if_pos hl] at h
        by_cases he : (r3.takeWhile (fun x => x ≠ '\"')).isEmpty
        · rw [if_pos he] at h
          simp at h
        · rw [if_neg he] at h
          have h1 := Option.some.inj h
          have h2 := congrArg Prod.fst h1
          have h3 := Option.some.inj h2
          intro hveq
          rw [hveq] at h3
          rw [List.isEmpty_iff] at he
          exact he ((stringMk_eq_empty_iff _).mp h3)
      · rw [if_neg hl] at h
        simp at h
    · rw [if_neg hc] at h
      simp at h

/-- The bare-token alternative never yields `some ""`. -/
theorem bareAt_value_ne_empty (r2 : List Char) (v : String) (n : Nat)
    (h : bareAt r2 = some (some v, n)) : v ≠ "" := by
  unfold bareAt at h
  by_cases he : (r2.takeWhile (fun c => !(jsWhitespace c || c = ','))).isEmpty
  · rw [if_pos he] at h
    simp at h
  · rw [if_neg he] at h
    have h1 := Option.some.inj h
    have h2 := congrArg Prod.fst h1
    have h3 := Option.some.inj h2
    intro hveq
    rw [hveq] at h3
    rw [List.isEmpty_iff] at he
    exact he ((stringMk_eq_empty_iff _).mp h3)

/-- The value alternation never yields `some ""`. -/
theorem valueAt_value_ne_empty (r2 : List Char) (v : String) (n : Nat)
    (h : valueAt r2 = some (some v, n)) : v ≠ "" := by
  unfold valueAt at h
  rcases hq : quotedAt r2 with _ | q
  · rw [hq] at h
    exact bareAt_value_ne_empty r2 v n h
  · rw [hq] at h
    cases Option.some.inj h
    exact quotedAt_value_ne_empty r2 v n hq

/-- A pair produced by the parameter regex never carries an empty value. -/
theorem tryPairAt_value_ne_empty (l : List Char) (kv : String × Option String)
    (n : Nat) (h : tryPairAt l = some (kv, n)) :
    ∀ v, kv.2 = some v → v ≠ "" := by
  intro v hv
  unfold tryPairAt at h
  repeat' split at h
  all_goals try exact Option.noConfusion h
  rename_i vv vlen hval
  injection h with h2
  injection h2 with hkv hn
  subst hkv
  have hv2 : vv = some v := hv
  rw [hv2] at hval
  exact valueAt_value_ne_empty _ _ _ hval

/-- Every value scanned out of the parameter text is absent or non-empty. -/
theorem scanParamsAux_value_ne_empty (fuel : Nat) :
    ∀ (l : List Char) (kv : String × Option String), kv ∈ scanParamsAux fuel l →
      ∀ v, kv.2 = some v → v ≠ "" := by
  induction fuel with
  | zero =>
    intro l kv h
    simp [scanParamsAux] at h
  | succ n ih =>
    intro l kv h
    match l with
    | [] => simp [scanParamsAux] at h
    | c :: rest =>
      rw [scanParamsAux] at h
      rcases htp : tryPairAt (c :: rest) with _ | ⟨kv', len⟩
      · rw [htp] at h
        exact ih rest kv h
      · rw [htp] at h
        rcases List.mem_cons.mp h with rfl | hmem
        · exact tryPairAt_value_ne_empty _ _ _ htp
        · exact ih _ kv hmem

/-- Folding challenge parameters preserves "the scope field is absent or
non-empty" provided every incoming value is absent or non-empty. -/
theorem applyParams_scope_ne_empty (pairs : List (String × Option String)) :
    ∀ ch : WWWAuthenticateChallenge,
      (∀ kv ∈ pairs, ∀ v, kv.2 = some v → v ≠ "") →
      (∀ v, ch.scope = some v → v ≠ "") →
      ∀ v, (applyParams ch pairs).scope = some v → v ≠ "" := by
  induction pairs with
  | nil =>
    intro ch _ hch
    exact hch
  | cons kv rest ih =>
    intro ch hpairs hch
    have hstep : ∀ v, (applyStep ch kv).scope = some v → v ≠ "" := by
      unfold applyStep
      repeat' split
      all_goals
        first
        | exact hpairs kv (List.mem_cons_self kv rest)
        | exact hch
    exact ih (applyStep ch kv)
      (fun kv' hm => hpairs kv' (List.mem_cons_of_mem _ hm)) hstep

/-- A parsed challenge never carries `some ""` in its `scope` field (the
regex value is `match[2] || match[3]`, which is never the empty string). -/
theorem parse_scope_ne_empty (h : String) (c : WWWAuthenticateChallenge)
    (hp : parseWWWAuthenticateHeader h = some c) :
    ∀ v, c.scope = some v → v ≠ "" := by
  unfold parseWWWAuthenticateHeader at hp
  split at hp
  · exact absurd hp (by simp)
  · rcases hb : bearerSearch h.data with _ | params
    · rw [hb] at hp
      exact absurd hp (by simp)
    · rw [hb] at hp
      have hc := Option.some.inj hp
      subst hc
      exact applyParams_scope_ne_empty _ _
        (fun kv hm => scanParamsAux_value_ne_empty _ _ kv hm)
        (fun v hv => by simp at hv)

/-- C4: `checkInsufficientScope` returns none unless the status is 403, a
header is present, the parsed challenge's error is exactly
`insufficient_scope` and the challenge carries a scope attribute; otherwise
it returns a signal whose required scopes are the challenge scope split on
spaces with empty tokens dropped, carrying the caller's current scopes and
the challenge's `resource_metadata` and `error_description` through
unchanged. -/
theorem c4_check_insufficient_scope (statusCode : Nat) (hdr : Option String)
    (cur : Option (List String)) :
    (statusCode ≠ 403 → checkInsufficientScope statusCode hdr cur = none) ∧
    (hdr = none → checkInsufficientScope statusCode hdr cur = none) ∧
    (∀ h c, hdr = some h → parseWWWAuthenticateHeader h = some c →
      c.error ≠ some "insufficient_scope" →
      checkInsufficientScope statusCode hdr cur = none) ∧
    (∀ h c, hdr = some h → parseWWWAuthenticateHeader h = some c →
      c.scope = none → checkInsufficientScope statusCode hdr cur = none) ∧
    (∀ h c s, statusCode = 403 → hdr = some h →
      parseWWWAuthenticateHeader h = some c →
      c.error = some "insufficient_scope" → c.scope = some s →
      checkInsufficientScope statusCode hdr cur =
        some (mkInsufficientScopeError (splitScopeString s) cur
          c.resource_metadata c.error_description)) := by
  have hne : ∀ h : String, ∀ c, parseWWWAuthenticateHeader h = some c →
      h ≠ "" := by
    rintro h c hp rfl
    exact absurd hp (by simp [parseWWWAuthenticateHeader])
  refine ⟨?_, ?_, ?_, ?_, ?_⟩
  · intro hsc
    simp [checkInsufficientScope, hsc]
  · rintro rfl
    rcases eq_or_ne statusCode 403 with rfl | hsc
    · simp [checkInsufficientScope]
    · simp [checkInsufficientScope, hsc]
  · rintro h c rfl hp herr
    rcases eq_or_ne statusCode 403 with rfl | hsc
    · simp [checkInsufficientScope, hne h c hp, hp, herr]
    · simp [checkInsufficientScope, hsc]
  · rintro h c rfl hp hscope
    rcases eq_or_ne statusCode 403 with rfl | hsc
    · by_cases herr : c.error = some "insufficient_scope"
      · simp [checkInsufficientScope, hne h c hp, hp, herr, hscope]
      · simp [checkInsufficientScope, hne h c hp, hp, herr]
    · simp [checkInsufficientScope, hsc]
  · rintro h c s rfl rfl hp herr hscope
    have hsne : s ≠ "" := parse_scope_ne_empty h c hp s hscope
    simp [checkInsufficientScope, hne h c hp, hp, herr, hscope, hsne]

/-- C4 witness: the claim's own examples.  The positive case applied to the
specification's header yields required scopes `["read","write","admin"]`;
the 401 case and the `invalid_token` case yield none. -/
theorem c4_check_insufficient_scope_witness :
    checkInsufficientScope 403
      (some "Bearer error=\"insufficient_scope\", scope=\"read write admin\"")
      (some ["read"]) =
      some (mkInsufficientScopeError ["read", "write", "admin"]
        (some ["read"]) none none) ∧
    checkInsufficientScope 401
      (some "Bearer error=\"insufficient_scope\", scope=\"read write admin\"")
      (some ["read"]) = none ∧
    checkInsufficientScope 403
      (some "Bearer error=\"invalid_token\", scope=\"read\"") none = none := by
  refine ⟨?_, ?_, ?_⟩
  · have := (c4_check_insufficient_scope 403
      (some "Bearer error=\"insufficient_scope\", scope=\"read write admin\"")
      (some ["read"])).2.2.2.2 _
      { scheme := "Bearer", scope := some "read write admin",
        error := some "insufficient_scope" } "read write admin" rfl rfl
      (by decide) rfl rfl
    rw [this]
    rfl
  · exact (c4_check_insufficient_scope 401 _ _).1 (by decide)
  · exact (c4_check_insufficient_scope 403 _ none).2.2.1 _
      { scheme := "Bearer", scope := some "read",
        error := some "invalid_token" } rfl (by decide) (by decide)

/-- C1 counterexample: the claim as stated is false.  In the store state
`stNoConfig` (expired token, refresh token present, but no configuration
stored), the refresh branch of the claim requires the new tokens and a
replaced store, but `getValidAccessToken` raises the configuration error
`OAuth config not set` and leaves the tokens in place. -/
theorem c1_counterexample : ¬ claimC1 := by
  intro h
  have hrt : tkExpired.refreshToken = some "rt-1" := rfl
  have hexp : isTokenExpired (some tkExpired) 0 = true := rfl
  have hstep := ((h stNoConfig 0 respOkBare).2.2.1 tkExpired "rt-1" rfl hexp
    hrt).1
    { accessToken := "new-access", refreshToken := some "rt-1",
      expiresAt := none, tokenType := "Bearer", scope := none } rfl
  exact absurd hstep (by decide)

/-- C1 (amended): for every store state, `getValidAccessToken` returns none
when no tokens are stored; returns the stored access token with the store
unchanged when the tokens are not expired; when expired with no usable
(absent or empty-string) refresh token, clears tokens and returns none
without raising an error; when expired with a usable refresh token but no
stored configuration, raises the configuration error `OAuth config not set`
and leaves the store unchanged; and when expired with a usable refresh token
and a configuration, invokes refresh — on success it replaces the stored
TokenSet wholesale and returns the new access token, on failure it clears
all stored tokens and propagates the refresh error. -/
theorem c1_get_valid_access_token (st : TokenManagerState) (now : Nat)
    (resp : TokenEndpointResponse) :
    (st.tokens = none →
      TokenManager.getValidAccessToken st now resp = (.ok none, st)) ∧
    (∀ tk, st.tokens = some tk → isTokenExpired (some tk) now = false →
      TokenManager.getValidAccessToken st now resp =
        (.ok (some tk.accessToken), st)) ∧
    (∀ tk, st.tokens = some tk → isTokenExpired (some tk) now = true →
      (tk.refreshToken = none ∨ tk.refreshToken = some "") →
      TokenManager.getValidAccessToken st now resp =
        (.ok none, TokenManager.clearTokens st)) ∧
    (∀ tk rt, st.tokens = some tk → isTokenExpired (some tk) now = true →
      tk.refreshToken = some rt → rt ≠ "" → st.config = none →
      TokenManager.getValidAccessToken st now resp =
        (.error "OAuth config not set", st)) ∧
    (∀ tk rt cfg, st.tokens = some tk → isTokenExpired (some tk) now = true →
      tk.refreshToken = some rt → rt ≠ "" → st.config = some cfg →
      (∀ nt, refreshAccessToken rt resp now = .ok nt →
        TokenManager.getValidAccessToken st now resp =
          (.ok (some nt.accessToken), TokenManager.setTokens st nt)) ∧
      (∀ e, refreshAccessToken rt resp now = .error e →
        TokenManager.getValidAccessToken st now resp =
          (.error e, TokenManager.clearTokens st))) := by
  refine ⟨?_, ?_, ?_, ?_, ?_⟩
  · intro h
    simp [TokenManager.getValidAccessToken, h]
  · intro tk hst hexp
    simp [TokenManager.getValidAccessToken, hst, hexp]
  · rintro tk hst hexp (hrt | hrt) <;>
      simp [TokenManager.getValidAccessToken, hst, hexp, hrt]
  · intro tk rt hst hexp hrt hne hcfg
    simp [TokenManager.getValidAccessToken, hst, hexp, hrt, hne, hcfg]
  · intro tk rt cfg hst hexp hrt hne hcfg
    constructor
    · intro nt href
      simp [TokenManager.getValidAccessToken, hst, hexp, hrt, hne, hcfg, href]
    · intro e href
      simp [TokenManager.getValidAccessToken, hst, hexp, hrt, hne, hcfg, href]

/-- C1 witness: the amended theorem applied to concrete stores — the
refresh-success path on `stWithConfig` (the response carries no new refresh
token, so the old one is carried forward), the refresh-failure path, the
missing-config path, and the no-token path. -/
theorem c1_get_valid_access_token_witness :
    TokenManager.getValidAccessToken stWithConfig 0 respOkBare =
      (.ok (some "new-access"), TokenManager.setTokens stWithConfig
        { accessToken := "new-access", refreshToken := some "rt-1",
          expiresAt := none, tokenType := "Bearer", scope := none }) ∧
    TokenManager.getValidAccessToken stWithConfig 0 respFail =
      (.error "Token refresh failed: invalid_grant",
        TokenManager.clearTokens stWithConfig) ∧
    TokenManager.getValidAccessToken stNoConfig 0 respOkBare =
      (.error "OAuth config not set", stNoConfig) ∧
    TokenManager.getValidAccessToken
      { tokens := none, pendingState := none, config := none } 0 respOkBare =
      (.ok none, { tokens := none, pendingState := none, config := none }) := by
  refine ⟨?_, ?_, ?_, ?_⟩
  · exact ((c1_get_valid_access_token stWithConfig 0 respOkBare).2.2.2.2
      tkExpired "rt-1" cfgBasic rfl rfl rfl (by decide) rfl).1
      { accessToken := "new-access", refreshToken := some "rt-1",
        expiresAt := none, tokenType := "Bearer", scope := none } (by decide)
  · exact ((c1_get_valid_access_token stWithConfig 0 respFail).2.2.2.2
      tkExpired "rt-1" cfgBasic rfl rfl rfl (by decide) rfl).2
      "Token refresh failed: invalid_grant" (by decide)
  · exact (c1_get_valid_access_token stNoConfig 0 respOkBare).2.2.2.1
      tkExpired "rt-1" rfl rfl rfl (by decide) rfl
  · exact (c1_get_valid_access_token _ 0 respOkBare).1 rfl

/-- C7 counterexample: the claim as stated is false.  For the successful
response `respOkExpiresZero`, whose `expires_in` is present with value 0,
the claim requires an absolute expiry of `now + 0`, but the source's
`data.expires_in ? … : undefined` treats 0 as falsy and leaves the expiry
absent. -/
theorem c7_counterexample : ¬ claimC7 := by
  intro h
  obtain ⟨t, ht, hexp⟩ := (((h respOkExpiresZero 5 "rt").1 rfl).1 0 rfl).1
  have ht0 : exchangeCodeForToken respOkExpiresZero 5 =
      .ok { accessToken := "tok", refreshToken := none, expiresAt := none,
            tokenType := "Bearer", scope := none } := rfl
  rw [ht0] at ht
  have := Except.ok.inj ht
  rw [← this] at hexp
  exact absurd hexp (by decide)

/-- C7 (amended): on a successful token response, `exchangeCodeForToken` and
`refreshAccessToken` map a present non-zero `expires_in` (relative seconds)
to the absolute expiry `now + expires_in * 1000`; an absent `expires_in` —
or the value 0, which JavaScript truthiness treats like absence — leaves the
expiry absent; `token_type` defaults to Bearer when absent or empty; on
refresh, the old refresh token is carried forward when the response's
refresh token is absent or empty, and the response's one is taken otherwise;
a non-success HTTP status yields the token-exchange or refresh failure
carrying the server's response body. -/
theorem c7_token_response_mapping (resp : TokenEndpointResponse) (now : Nat)
    (rt : String) :
    (resp.ok = false →
      exchangeCodeForToken resp now =
        .error ("Token exchange failed: " ++ resp.bodyText) ∧
      refreshAccessToken rt resp now =
        .error ("Token refresh failed: " ++ resp.bodyText)) ∧
    (resp.ok = true →
      (∀ e, resp.json.expires_in = some e → e ≠ 0 →
        (∃ t, exchangeCodeForToken resp now = .ok t ∧
          t.expiresAt = some ((now : Int) + e * 1000)) ∧
        (∃ t, refreshAccessToken rt resp now = .ok t ∧
          t.expiresAt = some ((now : Int) + e * 1000))) ∧
      ((resp.json.expires_in = none ∨ resp.json.expires_in = some 0) →
        (∃ t, exchangeCodeForToken resp now = .ok t ∧ t.expiresAt = none) ∧
        (∃ t, refreshAccessToken rt resp now = .ok t ∧ t.expiresAt = none)) ∧
      ((resp.json.token_type = none ∨ resp.json.token_type = some "") →
        (∃ t, exchangeCodeForToken resp now = .ok t ∧
          t.tokenType = "Bearer") ∧
        (∃ t, refreshAccessToken rt resp now = .ok t ∧
          t.tokenType = "Bearer")) ∧
      (∀ tt, resp.json.token_type = some tt → tt ≠ "" →
        ∃ t, exchangeCodeForToken resp now = .ok t ∧ t.tokenType = tt) ∧
      ((resp.json.refresh_token = none ∨ resp.json.refresh_token = some "") →
        ∃ t, refreshAccessToken rt resp now = .ok t ∧
          t.refreshToken = some rt) ∧
      (∀ r, resp.json.refresh_token = some r → r ≠ "" →
        (∃ t, refreshAccessToken rt resp now = .ok t ∧
          t.refreshToken = some r) ∧
        (∃ t, exchangeCodeForToken resp now = .ok t ∧
          t.refreshToken = some r))) := by
  constructor
  · intro hok
    constructor <;> simp [exchangeCodeForToken, refreshAccessToken, hok]
  · intro hok
    have hex : exchangeCodeForToken resp now = .ok
        { accessToken := resp.json.access_token,
          refreshToken := resp.json.refresh_token,
          expiresAt := jsExpiresAt resp.json.expires_in now,
          tokenType := jsTokenType resp.json.token_type,
          scope := resp.json.scope } := by
      simp [exchangeCodeForToken, hok]
    have hre : refreshAccessToken rt resp now = .ok
        { accessToken := resp.json.access_token,
          refreshToken := some
            (match resp.json.refresh_token with
             | some r => if r = "" then rt else r
             | none => rt),
          expiresAt := jsExpiresAt resp.json.expires_in now,
          tokenType := jsTokenType resp.json.token_type,
          scope := resp.json.scope } := by
      simp [refreshAccessToken, hok]
    refine ⟨?_, ?_, ?_, ?_, ?_, ?_⟩
    · intro e he hne
      exact ⟨⟨_, hex, by simp [jsExpiresAt, he, hne]⟩,
        ⟨_, hre, by simp [jsExpiresAt, he, hne]⟩⟩
    · rintro (he | he) <;>
        exact ⟨⟨_, hex, by simp [jsExpiresAt, he]⟩,
          ⟨_, hre, by simp [jsExpiresAt, he]⟩⟩
    · rintro (ht | ht) <;>
        exact ⟨⟨_, hex, by simp [jsTokenType, ht]⟩,
          ⟨_, hre, by simp [jsTokenType, ht]⟩⟩
    · intro tt ht hne
      exact ⟨_, hex, by simp [jsTokenType, ht, hne]⟩
    · rintro (hr | hr) <;> exact ⟨_, hre, by simp [hr]⟩
    · intro r hr hne
      exact ⟨⟨_, hre, by simp [hr, hne]⟩, ⟨_, hex, by simp [hr]⟩⟩

/-- C7 witness: the amended theorem applied to concrete responses — a
successful refresh response carrying `expires_in = 3600` at receipt time
1000, a bare successful response (old refresh token carried forward, Bearer
default), and a failed response carrying the body. -/
theorem c7_token_response_mapping_witness :
    (∃ t, refreshAccessToken "old-rt"
      { ok := true, bodyText := "",
        json := { access_token := "a", refresh_token := none,
                  expires_in := some 3600, token_type := none,
                  scope := none } } 1000 = .ok t ∧
      t.expiresAt = some 3601000) ∧
    (∃ t, refreshAccessToken "old-rt" respOkBare 1000 = .ok t ∧
      t.refreshToken = some "old-rt") ∧
    (∃ t, exchangeCodeForToken respOkBare 1000 = .ok t ∧
      t.tokenType = "Bearer") ∧
    exchangeCodeForToken respFail 1000 =
      .error ("Token exchange failed: invalid_grant") := by
  refine ⟨?_, ?_, ?_, ?_⟩
  · have := (((c7_token_response_mapping
      { ok := true, bodyText := "",
        json := { access_token := "a", refresh_token := none,
                  expires_in := some 3600, token_type := none,
                  scope := none } } 1000 "old-rt").2 rfl).1 3600 rfl
      (by decide)).2
    simpa using this
  · exact ((c7_token_response_mapping respOkBare 1000 "old-rt").2
      rfl).2.2.2.2.1 (Or.inl rfl)
  · exact (((c7_token_response_mapping respOkBare 1000 "old-rt").2
      rfl).2.2.1 (Or.inl rfl)).1
  · exact ((c7_token_response_mapping respFail 1000 "old-rt").1 rfl).1

/-- C8 counterexample: the claim as stated is false.  For a configuration
whose `resource` is set to the empty string, `config.resource ≠ none`, yet
the source guards the append with `if (config.resource)` (JavaScript
truthiness) and omits the `resource` query parameter. -/
theorem c8_counterexample : ¬ claimC8 := by
  intro h
  have hmem := (h { cfgBasic with resource := some "" } pkceFixture
    none).2.2.2.2.2.2.2.mpr (by simp)
  exact absurd hmem (by decide)

/-- C8 (amended): the query built by `buildAuthorizationUrl` always contains
`client_id`, `response_type=code`, `redirect_uri`, `state`,
`code_challenge`, and `code_challenge_method=S256`; it contains `scope`
(space-joined) if and only if the scope list is non-none and non-empty; and
it contains `resource` if and only if `config.resource` is set to a
non-empty string (an empty string is falsy and is omitted). -/
theorem c8_authorization_url_params (config : OAuthConfig)
    (oauthState : OAuthState) (scopes : Option (List String)) :
    ("client_id", config.clientId) ∈
      buildAuthorizationUrlParams config oauthState scopes ∧
    ("response_type", "code") ∈
      buildAuthorizationUrlParams config oauthState scopes ∧
    ("redirect_uri", config.redirectUri) ∈
      buildAuthorizationUrlParams config oauthState scopes ∧
    ("state", oauthState.state) ∈
      buildAuthorizationUrlParams config oauthState scopes ∧
    ("code_challenge", oauthState.codeChallenge) ∈
      buildAuthorizationUrlParams config oauthState scopes ∧
    ("code_challenge_method", "S256") ∈
      buildAuthorizationUrlParams config oauthState scopes ∧
    ("scope" ∈ (buildAuthorizationUrlParams config oauthState scopes).map
        Prod.fst ↔ ∃ l, scopes = some l ∧ l ≠ []) ∧
    (∀ l, scopes = some l → l ≠ [] →
      ("scope", joinStr " " l) ∈
        buildAuthorizationUrlParams config oauthState scopes) ∧
    ("resource" ∈ (buildAuthorizationUrlParams config oauthState scopes).map
        Prod.fst ↔ ∃ r, config.resource = some r ∧ r ≠ "") ∧
    (∀ r, config.resource = some r → r ≠ "" →
      ("resource", r) ∈
        buildAuthorizationUrlParams config oauthState scopes) ∧
    buildAuthorizationUrl config oauthState scopes =
      config.authorizationUrl ++ "?" ++
        String.mk (joinSep ['&']
          ((buildAuthorizationUrlParams config oauthState scopes).map
            (fun kv => kv.1.data ++ '=' :: kv.2.data))) := by
  have hscope : ∀ l, scopes = some l → l ≠ [] →
      ("scope", joinStr " " l) ∈
        buildAuthorizationUrlParams config oauthState scopes := by
    rintro l rfl hl
    simp [buildAuthorizationUrlParams, List.length_pos.mpr hl]
  have hres : ∀ r, config.resource = some r → r ≠ "" →
      ("resource", r) ∈ buildAuthorizationUrlParams config oauthState scopes := by
    intro r hr hne
    simp [buildAuthorizationUrlParams, hr, hne]
  refine ⟨?_, ?_, ?_, ?_, ?_, ?_, ⟨?_, ?_⟩, hscope, ⟨?_, ?_⟩, hres, rfl⟩
  · simp [buildAuthorizationUrlParams]
  · simp [buildAuthorizationUrlParams]
  · simp [buildAuthorizationUrlParams]
  · simp [buildAuthorizationUrlParams]
  · simp [buildAuthorizationUrlParams]
  · simp [buildAuthorizationUrlParams]
  · intro hmem
    rcases hs : scopes with _ | l
    · rw [hs] at hmem
      rcases hcr : config.resource with _ | r
      · simp [buildAuthorizationUrlParams, hcr] at hmem
      · by_cases hr2 : r = "" <;>
          simp [buildAuthorizationUrlParams, hcr, hr2] at hmem
    · refine ⟨l, rfl, ?_⟩
      rintro rfl
      rw [hs] at hmem
      rcases hcr : config.resource with _ | r
      · simp [buildAuthorizationUrlParams, hcr] at hmem
      · by_cases hr2 : r = "" <;>
          simp [buildAuthorizationUrlParams, hcr, hr2] at hmem
  · rintro ⟨l, rfl, hl⟩
    have := hscope l rfl hl
    exact List.mem_map.mpr ⟨_, this, rfl⟩
  · intro hmem
    rcases hcr : config.resource with _ | r
    · rcases hs : scopes with _ | l
      · simp [buildAuthorizationUrlParams, hcr, hs] at hmem
      · by_cases hl : 0 < l.length <;>
          simp [buildAuthorizationUrlParams, hcr, hs, hl] at hmem
    · refine ⟨r, rfl, ?_⟩
      rintro rfl
      rcases hs : scopes with _ | l
      · simp [buildAuthorizationUrlParams, hcr, hs] at hmem
      · by_cases hl : 0 < l.length <;>
          simp [buildAuthorizationUrlParams, hcr, hs, hl] at hmem
  · rintro ⟨r, hr, hne⟩
    exact List.mem_map.mpr ⟨_, hres r hr hne, rfl⟩

/-- C8 witness: the amended theorem applied to a concrete configuration with
a resource set and a two-scope list: both conditional parameters appear with
their space-joined and verbatim values. -/
theorem c8_authorization_url_params_witness :
    ("scope", "read write") ∈ buildAuthorizationUrlParams
      { cfgBasic with resource := some "https://mcp.example.com" }
      pkceFixture (some ["read", "write"]) ∧
    ("resource", "https://mcp.example.com") ∈ buildAuthorizationUrlParams
      { cfgBasic with resource := some "https://mcp.example.com" }
      pkceFixture (some ["read", "write"]) ∧
    ("code_challenge_method", "S256") ∈ buildAuthorizationUrlParams
      { cfgBasic with resource := some "https://mcp.example.com" }
      pkceFixture (some ["read", "write"]) := by
  refine ⟨?_, ?_, ?_⟩
  · have := (c8_authorization_url_params
      { cfgBasic with resource := some "https://mcp.example.com" }
      pkceFixture (some ["read", "write"])).2.2.2.2.2.2.2.1
      ["read", "write"] rfl (by decide)
    rw [show joinStr " " ["read", "write"] = "read write" from rfl] at this
    exact this
  · exact (c8_authorization_url_params _ pkceFixture
      (some ["read", "write"])).2.2.2.2.2.2.2.2.2.1
      "https://mcp.example.com" rfl (by decide)
  · exact (c8_authorization_url_params _ pkceFixture
      (some ["read", "write"])).2.2.2.2.2.1

/-- `applyStep` never modifies the scheme field. -/
theorem applyStep_scheme (ch : WWWAuthenticateChallenge)
    (kv : String × Option String) : (applyStep ch kv).scheme = ch.scheme := by
  unfold applyStep
  repeat' split
  all_goals rfl

/-- `applyParams` never modifies the scheme field. -/
theorem applyParams_scheme (pairs : List (String × Option String)) :
    ∀ ch, (applyParams ch pairs).scheme = ch.scheme := by
  induction pairs with
  | nil => intro ch; rfl
  | cons kv rest ih =>
    intro ch
    have : applyParams ch (kv :: rest) = applyParams (applyStep ch kv) rest :=
      rfl
    rw [this, ih, applyStep_scheme]

/-- A pair with an unrecognized key leaves the challenge unchanged. -/
theorem applyStep_unrecognized (ch : WWWAuthenticateChallenge)
    (kv : String × Option String) (h : recognizedKey kv.1 = false) :
    applyStep ch kv = ch := by
  simp only [recognizedKey, Bool.or_eq_false_iff, decide_eq_false_iff_not] at h
  obtain ⟨⟨⟨h1, h2⟩, h3⟩, h4⟩ := h
  unfold applyStep
  rw [if_neg h1, if_neg h2, if_neg h3, if_neg h4]

/-- C5 counterexample: the claim as stated is false.  The header
`NotBearer scope=x` has scheme `NotBearer`, yet the source's unanchored
regex `/Bearer\s+(.+)/i` matches the substring `Bearer scope=x` and yields a
challenge. -/
theorem c5_counterexample : ¬ claimC5 := by
  intro h
  exact absurd ((h "NotBearer scope=x").1 (by decide)) (by decide)

/-- C5 (amended): `parseWWWAuthenticateHeader` yields a challenge exactly
for the headers in which the unanchored, case-insensitive pattern
`Bearer\s+(.+)` matches somewhere — so a header of a different scheme whose
text contains `Bearer` followed by whitespace and further text still yields
a challenge, while an empty or unmatched header yields none and never an
error (the function is total into `Option`); every produced challenge has
scheme Bearer; the captured parameter text is scanned for `key=value` pairs
whose values may be double-quoted (quotes stripped; a quoted empty value
leaves the field unset) or bare tokens ending at the next comma or
whitespace; only `resource_metadata`, `scope`, `error`, `error_description`
are kept and unrecognized keys are ignored. -/
theorem c5_parse_challenge :
    parseWWWAuthenticateHeader "" = none ∧
    (∀ s, parseWWWAuthenticateHeader s = none ↔
      (s = "" ∨ bearerSearch s.data = none)) ∧
    (∀ s c, parseWWWAuthenticateHeader s = some c → c.scheme = "Bearer") ∧
    (∀ (ch : WWWAuthenticateChallenge) (pairs : List (String × Option String)),
      applyParams ch (pairs.filter (fun kv => recognizedKey kv.1)) =
        applyParams ch pairs) ∧
    parseWWWAuthenticateHeader
      "Bearer error=\"insufficient_scope\", scope=\"read write admin\"" =
      some { scheme := "Bearer", scope := some "read write admin",
             error := some "insufficient_scope" } ∧
    parseWWWAuthenticateHeader "Basic realm=\"mcp\"" = none ∧
    parseWWWAuthenticateHeader "bearer error=invalid_token xyz" =
      some { scheme := "Bearer", error := some "invalid_token" } ∧
    parseWWWAuthenticateHeader "Bearer scope=\"\"" =
      some { scheme := "Bearer" } := by
  refine ⟨rfl, ?_, ?_, ?_, by decide, by decide, by decide, by decide⟩
  · intro s
    by_cases hs : s = ""
    · subst hs
      simp [parseWWWAuthenticateHeader]
    · rcases hb : bearerSearch s.data with _ | params <;>
        simp [parseWWWAuthenticateHeader, hs, hb]
  · intro s c hp
    by_cases hs : s = ""
    · simp [parseWWWAuthenticateHeader, hs] at hp
    · rcases hb : bearerSearch s.data with _ | params
      · simp [parseWWWAuthenticateHeader, hs, hb] at hp
      · simp [parseWWWAuthenticateHeader, hs, hb] at hp
        rw [← hp]
        rw [applyParams_scheme]
  · intro ch pairs
    induction pairs generalizing ch with
    | nil => rfl
    | cons kv rest ih =>
      by_cases hk : recognizedKey kv.1
      · have hfil : List.filter (fun kv => recognizedKey kv.1) (kv :: rest) =
            kv :: List.filter (fun kv => recognizedKey kv.1) rest := by
          simp [List.filter_cons, hk]
        have h1 : applyParams ch
            (kv :: List.filter (fun kv => recognizedKey kv.1) rest) =
            applyParams (applyStep ch kv)
              (List.filter (fun kv => recognizedKey kv.1) rest) := rfl
        have h2 : applyParams ch (kv :: rest) =
            applyParams (applyStep ch kv) rest := rfl
        rw [hfil, h1, h2, ih]
      · have hfil : List.filter (fun kv => recognizedKey kv.1) (kv :: rest) =
            List.filter (fun kv => recognizedKey kv.1) rest := by
          simp [List.filter_cons, hk]
        have h2 : applyParams ch (kv :: rest) =
            applyParams (applyStep ch kv) rest := rfl
        rw [hfil, h2, applyStep_unrecognized ch kv (by simpa using hk), ih]

/-- C5 witness: the amended characterization applied to the specification's
positive example — the pattern matches, so the parse is not none, and the
produced challenge has scheme Bearer. -/
theorem c5_parse_challenge_witness :
    parseWWWAuthenticateHeader
      "Bearer error=\"insufficient_scope\", scope=\"read write admin\"" ≠
      none ∧
    ∀ c, parseWWWAuthenticateHeader
      "Bearer error=\"insufficient_scope\", scope=\"read write admin\"" =
      some c → c.scheme = "Bearer" := by
  constructor
  · intro hnone
    have := (c5_parse_challenge.2.1
      "Bearer error=\"insufficient_scope\", scope=\"read write admin\"").mp
      hnone
    exact absurd this (by decide)
  · exact fun c => c5_parse_challenge.2.2.1 _ c

/-- The discovery loop returns the first accepted candidate, and otherwise
the `lastError` accumulated over all candidates. -/
theorem discoverLoop_eq (oracle : String → FetchResult) (issuerUrl : String)
    (expected : UrlParts) :
    ∀ (urls : List String) (init : Option String),
      discoverLoop oracle issuerUrl expected urls init =
        (match firstSuccess oracle issuerUrl expected urls with
         | some m => .inl m
         | none => .inr (lastErrorOf oracle issuerUrl expected urls init)) := by
  intro urls
  induction urls with
  | nil => intro init; rfl
  | cons u rest ih =>
    intro init
    rcases hc : candidateOutcome oracle issuerUrl expected u with e | m
    · have hl : discoverLoop oracle issuerUrl expected (u :: rest) init =
          discoverLoop oracle issuerUrl expected rest (some e) := by
        simp [discoverLoop, hc]
      have hf : firstSuccess oracle issuerUrl expected (u :: rest) =
          firstSuccess oracle issuerUrl expected rest := by
        simp [firstSuccess, List.findSome?_cons, hc, Except.toOption]
      have hle : lastErrorOf oracle issuerUrl expected (u :: rest) init =
          lastErrorOf oracle issuerUrl expected rest (some e) := by
        simp [lastErrorOf, hc]
      rw [hl, hf, hle, ih]
    · have hl : discoverLoop oracle issuerUrl expected (u :: rest) init =
          .inl m := by
        simp [discoverLoop, hc]
      have hf : firstSuccess oracle issuerUrl expected (u :: rest) = some m := by
        simp [firstSuccess, List.findSome?_cons, hc, Except.toOption]
      rw [hl, hf]

/-- C2: for every issuer URL (of the modelled `scheme://host[/path]` shape),
discovery builds exactly three candidate URLs in order for a non-root path —
the two path-insertion forms on the origin, then the path-appending OpenID
form on the raw issuer URL — and exactly the two root forms otherwise; for
every fetch layer it returns the first candidate accepted by
`candidateOutcome` (successful fetch, all required metadata fields, issuer
matching by case-insensitive origin and exact path), and when every
candidate fails it fails with the message listing all attempted URLs and the
last underlying error. -/
theorem c2_discovery (issuerUrl : String) (u : UrlParts)
    (hu : parseUrl issuerUrl = some u) :
    (normalizePath u.pathname ≠ "" → normalizePath u.pathname ≠ "/" →
      discoveryUrls issuerUrl u =
        [u.origin ++ "/.well-known/oauth-authorization-server" ++
           normalizePath u.pathname,
         u.origin ++ "/.well-known/openid-configuration" ++
           normalizePath u.pathname,
         issuerUrl ++ "/.well-known/openid-configuration"]) ∧
    (normalizePath u.pathname = "/" →
      discoveryUrls issuerUrl u =
        [u.origin ++ "/.well-known/oauth-authorization-server",
         u.origin ++ "/.well-known/openid-configuration"]) ∧
    (∀ oracle : String → FetchResult,
      (∀ m, firstSuccess oracle issuerUrl u (discoveryUrls issuerUrl u) =
          some m →
        discoverAuthorizationServerMetadata oracle issuerUrl = .ok m) ∧
      (firstSuccess oracle issuerUrl u (discoveryUrls issuerUrl u) = none →
        discoverAuthorizationServerMetadata oracle issuerUrl =
          .error (discoveryFailureMessage issuerUrl (discoveryUrls issuerUrl u)
            (lastErrorOf oracle issuerUrl u (discoveryUrls issuerUrl u)
              none)))) ∧
    (∀ (oracle : String → FetchResult) (url : String)
      (m : AuthorizationServerMetadata),
      candidateOutcome oracle issuerUrl u url = .ok m ↔
        (fetchAuthorizationServerMetadata oracle url = .ok m ∧
          ∃ mi, parseUrl (m.issuer.getD "") = some mi ∧
            lowerStr mi.origin = lowerStr u.origin ∧
            mi.pathname = u.pathname)) ∧
    (∀ (oracle : String → FetchResult) (url : String)
      (m : AuthorizationServerMetadata),
      fetchAuthorizationServerMetadata oracle url = .ok m ↔
        ∃ status statusText, oracle url = .resp true status statusText m ∧
          jsTruthyStr m.issuer = true ∧
          jsTruthyStr m.authorization_endpoint = true ∧
          jsTruthyStr m.token_endpoint = true ∧
          ∃ rts, m.response_types_supported = some rts ∧ rts ≠ []) := by
  refine ⟨?_, ?_, ?_, ?_, ?_⟩
  · intro h1 h2
    simp [discoveryUrls, h1, h2]
  · intro h1
    simp [discoveryUrls, h1]
  · intro oracle
    constructor
    · intro m hm
      simp [discoverAuthorizationServerMetadata, hu, discoverLoop_eq, hm]
    · intro hm
      simp [discoverAuthorizationServerMetadata, hu, discoverLoop_eq, hm]
  · intro oracle url m
    constructor
    · intro h
      unfold candidateOutcome at h
      rcases hf : fetchAuthorizationServerMetadata oracle url with e | m2
      · simp [hf] at h
      · simp only [hf] at h
        rcases hp : parseUrl (m2.issuer.getD "") with _ | mi
        · simp [hp] at h
        · simp only [hp] at h
          split at h
          · rename_i hcond
            cases Except.ok.inj h
            rw [Bool.and_eq_true, decide_eq_true_eq, decide_eq_true_eq]
              at hcond
            exact ⟨rfl, mi, hp, hcond.1, hcond.2⟩
          · exact absurd h (by simp)

    · rintro ⟨hf, mi, hp, h1, h2⟩
      unfold candidateOutcome
      simp only [hf, hp]
      simp [h1, h2]
  · intro oracle url m
    constructor
    · intro h
      unfold fetchAuthorizationServerMetadata at h
      rcases ho : oracle url with msg | ⟨ok, status, statusText, body⟩
      · simp [ho] at h
      · simp only [ho] at h
        split at h
        · simp at h
        · rename_i hoknot
          split at h
          · simp at h
          · rename_i htruthy
            rcases hrts : body.response_types_supported with _ | rts
            · simp only [hrts] at h
              simp at h
            · simp only [hrts] at h
              split at h
              · simp at h
              · rename_i hne
                cases Except.ok.inj h
                have hok : ok = true := by
                  revert hoknot
                  rcases ok <;> simp
                have htr : (jsTruthyStr m.issuer &&
                    jsTruthyStr m.authorization_endpoint &&
                    jsTruthyStr m.token_endpoint) = true := by
                  revert htruthy
                  rcases htx : jsTruthyStr m.issuer &&
                      jsTruthyStr m.authorization_endpoint &&
                      jsTruthyStr m.token_endpoint <;> simp
                rw [Bool.and_eq_true, Bool.and_eq_true] at htr
                refine ⟨status, statusText, ?_, htr.1.1, htr.1.2, htr.2,
                  rts, hrts, ?_⟩
                · rw [hok]
                · simpa [List.isEmpty_iff] using hne
    · rintro ⟨status, statusText, ho, h1, h2, h3, rts, hrts, hne⟩
      unfold fetchAuthorizationServerMetadata
      simp only [ho, hrts]
      simp [h1, h2, h3, List.isEmpty_iff, hne]

set_option maxRecDepth 100000 in
/-- C2 witness: discovery for issuer `https://auth.example.com/tenant1`
attempts exactly the three specified URLs in order; with a fetch layer
answering the first URL with matching metadata it returns that metadata; and
with a fetch layer failing every URL it fails with the message listing all
three attempted URLs and the last error. -/
theorem c2_discovery_witness :
    discoveryUrls "https://auth.example.com/tenant1"
      { origin := "https://auth.example.com", pathname := "/tenant1" } =
      ["https://auth.example.com/.well-known/oauth-authorization-server/tenant1",
       "https://auth.example.com/.well-known/openid-configuration/tenant1",
       "https://auth.example.com/tenant1/.well-known/openid-configuration"] ∧
    discoverAuthorizationServerMetadata oracleTenant1
      "https://auth.example.com/tenant1" = .ok metaTenant1 ∧
    discoverAuthorizationServerMetadata oracleAllFail
      "https://auth.example.com/tenant1" =
      .error ("Failed to discover Authorization Server Metadata for https://auth.example.com/tenant1. Tried: https://auth.example.com/.well-known/oauth-authorization-server/tenant1, https://auth.example.com/.well-known/openid-configuration/tenant1, https://auth.example.com/tenant1/.well-known/openid-configuration. Last error: no route to https://auth.example.com/tenant1/.well-known/openid-configuration") := by
  refine ⟨?_, ?_, ?_⟩
  · exact (c2_discovery "https://auth.example.com/tenant1"
      { origin := "https://auth.example.com", pathname := "/tenant1" }
      (by decide)).1 (by decide) (by decide)
  · exact ((c2_discovery "https://auth.example.com/tenant1"
      { origin := "https://auth.example.com", pathname := "/tenant1" }
      (by decide)).2.2.1 oracleTenant1).1 metaTenant1 (by decide)
  · have h := ((c2_discovery "https://auth.example.com/tenant1"
      { origin := "https://auth.example.com", pathname := "/tenant1" }
      (by decide)).2.2.1 oracleAllFail).2 (by decide)
    exact h.trans (by decide)

end OAuthCore
